import Mathlib

/-!
# Verification of the aitk.robots recorder / playback controller

Shallow embedding of `src/aitk/robots/watchers.py` (classes `_Player`,
`Recorder`, `Player`) and the parts of `src/aitk/robots/utils.py` they use
(`arange`, `Point`).  Times and coordinates are Python floats in the source;
they are modelled as exact rationals (`ℚ`), with Python's `round` (banker's
rounding, round-half-to-even) made explicit.  External collaborators that are
not part of the two source files (the `World` mirror, robots, media encoding)
are modelled from the specification and marked as such.
-/

set_option maxRecDepth 4000

/-- Python's built-in `round` to an integer: round-half-to-even
(banker's rounding), as used by `round(time / 0.1)` in the source. -/
def pyRound (q : ℚ) : ℤ :=
  if q - ⌊q⌋ < 1/2 then ⌊q⌋
  else if 1/2 < q - ⌊q⌋ then ⌊q⌋ + 1
  else if ⌊q⌋ % 2 = 0 then ⌊q⌋ else ⌊q⌋ + 1

/-- Python's `round(x, 1)`: round to one decimal digit (used throughout
`Player.goto` / `Player.update_length` to suppress float noise; on exact
rationals that are already multiples of 1/10 it is the identity). -/
def pyRound1 (q : ℚ) : ℚ :=
  (pyRound (q * 10) : ℚ) / 10

/-!
## The `Player` navigation widget (watchers.py, class `Player`)

The widget's observable cursor state consists of the recorded log length
(`self.length`), the slider's current value (`self.control_slider.value`)
and the slider's configured maximum (`self.control_slider.max`).  The
ipywidgets `FloatSlider` validates every assigned value into
`[min, max] = [0, sliderMax]`, which `sliderSet` makes explicit.
-/

structure PlayerState where
  length : ℕ
  value : ℚ
  sliderMax : ℚ
deriving DecidableEq

/-- Assignment to `self.control_slider.value`: the bounded widget clamps
the assigned value into `[0, max]`. -/
def sliderSet (s : PlayerState) (v : ℚ) : PlayerState :=
  { s with value := max 0 (min v s.sliderMax) }

/-- `Player.update_length` (watchers.py lines 460-463): stores the new
length and sets the slider maximum to `round(max(length * 0.1, 0), 1)`. -/
def Player.update_length (s : PlayerState) (length : ℕ) : PlayerState :=
  { s with
    length := length
    sliderMax := pyRound1 (max ((length : ℚ) * (1/10)) 0) }

/-- `Player.goto` (watchers.py lines 465-485): discrete navigation on the
slider value.  `position` is one of the strings "begin", "end", "prev",
"next"; any other argument leaves the slider untouched. -/
def Player.goto (s : PlayerState) (position : String) : PlayerState :=
  if position = "begin" then
    sliderSet s 0
  else if position = "end" then
    sliderSet s (pyRound1 ((s.length : ℚ) * (1/10)))
  else if position = "prev" then
    if s.value - 1/10 < 0 then
      sliderSet s (pyRound1 ((s.length : ℚ) * (1/10)))
    else
      sliderSet s (pyRound1 (max (s.value - 1/10) 0))
  else if position = "next" then
    if pyRound1 (s.value + 1/10) > pyRound1 ((s.length : ℚ) * (1/10)) then
      sliderSet s 0
    else
      sliderSet s (pyRound1 (min (s.value + 1/10) ((s.length : ℚ) * (1/10))))
  else s

/-- A `Player` state as produced by `update_length` with the cursor at a
given value: the slider maximum is consistent with the stored length. -/
def playerAt (length : ℕ) (value : ℚ) : PlayerState :=
  { Player.update_length { length := 0, value := value, sliderMax := 0 } length with
    value := value }

/-!
## Data model of the recorder (watchers.py, class `Recorder`)
-/

/-- `Point` (utils.py lines 491-509): a plain 2-D point. -/
structure Point where
  x : ℚ
  y : ℚ
deriving DecidableEq

/-- One robot's recorded instant: the 7-tuple
`(x, y, a, vx, vy, va, stalled)` appended per robot by `Recorder.update`
(watchers.py lines 305-320). -/
structure Snapshot where
  x : ℚ
  y : ℚ
  a : ℚ
  vx : ℚ
  vy : ℚ
  va : ℚ
  stalled : Bool
deriving DecidableEq

/-- One entry of `Recorder.states`: the per-robot snapshots captured at one
simulation tick. -/
abbrev StepRecord := List Snapshot

/-- Modelled from the spec: the `Robot` objects living in the playback copy
of the `World` are outside src/ (module `world` is an external collaborator,
spec section 2); the fields below are exactly those `Recorder.goto` reads and
writes on `self.world.robots[i]`. -/
structure MirrorRobot where
  x : ℚ
  y : ℚ
  a : ℚ
  vx : ℚ
  vy : ℚ
  va : ℚ
  stalled : Bool
  do_trace : Bool
  max_trace_length : ℕ
  trace : List (Point × ℚ)
deriving DecidableEq

/-- Modelled from the spec: the playback copy `self.world` is outside src/.
Its observable state, per spec section 4.2, is the mirrored robots, the
simulated-time field set by `goto`, and whether the static background has
been regenerated to its pristine initial appearance (`reset_ground_image`,
triggered exactly when the time is set to 0). -/
structure MirrorWorld where
  robots : List MirrorRobot
  time : ℚ
  backgroundPristine : Bool
deriving DecidableEq

/-- Modelled from the spec: `render(state) -> Picture` is a black box
(spec section 1), so a rendered picture is modelled as the mirror state it
was rendered from. -/
structure Picture where
  world : MirrorWorld
deriving DecidableEq

/-- Modelled from the spec: `World.update()` advances the mirror's internal
bookkeeping, refreshing derived/cached display state (spec section 4.2
step 7); it adds no independent observable state to the modelled mirror, so
it is the identity on the modelled fields. -/
def worldUpdate (w : MirrorWorld) : MirrorWorld := w

/-- Modelled from the spec: `Robot._set_pose(x, y, a, clear_trace=False)` is
outside src/; spec section 4.2 step 4 specifies that it sets position and
heading unconditionally and, with `clear_trace=False`, does not clear the
persistent drawn trail. -/
def MirrorRobot.set_pose (r : MirrorRobot) (x y a : ℚ) : MirrorRobot :=
  { r with x := x, y := y, a := a }

/-- Evaluation of a Python list comprehension whose element lookups can raise
`IndexError`: every lookup must succeed, otherwise the whole expression
raises. -/
def mapRaise (g : α → Option β) : List α → Option (List β)
  | [] => some []
  | x :: xs =>
    match g x, mapRaise g xs with
    | some y, some ys => some (y :: ys)
    | _, _ => none

/-- `Recorder.get_trace` (watchers.py lines 333-342): the trace window
`[(Point(x, y), a)]` of one robot over the log slice
`states[max(current_index - max_length, 0) : current_index + 1]`
(truncated subtraction is Python's `max(... , 0)`; Python slices clip at the
end of the list, which `drop`/`take` reproduce). -/
def Recorder.get_trace (states : List StepRecord)
    (robot_index current_index max_length : ℕ) : Option (List (Point × ℚ)) :=
  let start_index := current_index - max_length
  mapRaise
    (fun state => state[robot_index]?.map (fun s => (Point.mk s.x s.y, s.a)))
    ((states.drop start_index).take (current_index + 1 - start_index))

/-- The clamp `max(min(len(self.states) - 1, index), 0)`
(watchers.py line 365). -/
def clampIndex (L : ℕ) (index : ℤ) : ℤ :=
  max (min ((L : ℤ) - 1) index) 0

/-- The log index selected by `Recorder.goto` for a non-empty log:
`round(time / 0.1)` clamped into `[0, len(states) - 1]`. -/
def gotoIndex (L : ℕ) (time : ℚ) : ℕ :=
  (clampIndex L (pyRound (time / (1/10)))).toNat

/-- The time value of the claim's clamp formula:
`clamp(round(t / step_duration), 0, L-1) * step_duration`. -/
def clampTime (L : ℕ) (t : ℚ) : ℚ :=
  ((clampIndex L (pyRound (t / (1/10)))) : ℚ) * (1/10)

/-- The tail of `Recorder.goto` (watchers.py lines 377-381): install the
reconstructed robots, set `self.world.time = time`, and regenerate the
static background exactly when that time is 0 (`reset_ground_image`). -/
def gotoWorld (w : MirrorWorld) (robots : List MirrorRobot) (t : ℚ) : MirrorWorld :=
  if t = 0 then { w with robots := robots, time := t, backgroundPristine := true }
  else { w with robots := robots, time := t }

/-- Body of the empty-log (pass-through) loop of `Recorder.goto`
(watchers.py lines 348-363): pose, velocities and the stall flag are copied
verbatim from the live robot, and the mirrored trace is cleared
(`trace[:] = []`). -/
def passThrough (r : MirrorRobot) (s : Snapshot) : MirrorRobot :=
  { r.set_pose s.x s.y s.a with
    vx := s.vx, vy := s.vy, va := s.va, stalled := s.stalled, trace := [] }

/-- The `for i, orig_robot in enumerate(...)` loop of the empty-log branch:
mirrored robots beyond the live list are untouched; a live robot without a
mirrored counterpart would raise `IndexError` on `self.world.robots[i]`. -/
def updateRobotsLive : List MirrorRobot → List Snapshot → Option (List MirrorRobot)
  | robots, [] => some robots
  | [], _ :: _ => none
  | r :: rs, s :: ss => (updateRobotsLive rs ss).map (fun rest => passThrough r s :: rest)

/-- Body of the non-empty-log loop of `Recorder.goto` (watchers.py lines
366-376): apply the recorded snapshot to robot `i` and, when that robot has
trace drawing enabled, replace its trace with the recomputed window;
otherwise its trace is left untouched. -/
def applyRecorded (states : List StepRecord) (index i : ℕ)
    (r : MirrorRobot) (s : Snapshot) : Option MirrorRobot :=
  let r1 := { r.set_pose s.x s.y s.a with
    vx := s.vx, vy := s.vy, va := s.va, stalled := s.stalled }
  if r1.do_trace then
    (Recorder.get_trace states i index r1.max_trace_length).map
      (fun tr => { r1 with trace := tr })
  else some r1

/-- The `for i, state in enumerate(self.states[index])` loop of the
non-empty branch, threading the running robot index `i`. -/
def updateRobotsPlayback (states : List StepRecord) (index : ℕ) :
    ℕ → List MirrorRobot → List Snapshot → Option (List MirrorRobot)
  | _, robots, [] => some robots
  | _, [], _ :: _ => none
  | i, r :: rs, s :: ss => do
    let r1 ← applyRecorded states index i r s
    let rest ← updateRobotsPlayback states index (i + 1) rs ss
    some (r1 :: rest)

/-- `Recorder.goto` (watchers.py lines 344-383).  `states` is
`self.states`, `live` the live robots of `self.orig_world` (only the seven
recorded attributes are read from them), `w` the playback mirror
`self.world`, and `time` the requested time.  The mirror's time field is
set to the raw `time` argument; `reset_ground_image` fires exactly when
that time equals 0; `self.world.update()` and
`self.world.display(format="image")` are the spec-modelled collaborators
`worldUpdate` and `Picture.mk`. -/
def Recorder.goto (states : List StepRecord) (live : List Snapshot)
    (w : MirrorWorld) (time : ℚ) : Option (MirrorWorld × Picture) := do
  let robots ←
    if states.length = 0 then
      updateRobotsLive w.robots live
    else do
      let index := gotoIndex states.length time
      let record ← states[index]?
      updateRobotsPlayback states index 0 w.robots record
  let w1 := { w with robots := robots, time := time }
  let w2 := if w1.time = 0 then { w1 with backgroundPristine := true } else w1
  let w3 := worldUpdate w2
  some (w3, Picture.mk w3)

/-!
## `arange` (utils.py lines 285-303) and the exporter (`Recorder.save_as`)
-/

/-- The ascending loop of `arange.__iter__` (utils.py lines 293-296):
`while current <= stop: yield current; current += step`.  The loop runs
`floor((stop - current) / step) + 1` times when `current ≤ stop`; the fuel
passed by `arangeList` is exactly that bound, and `arangeAsc_fuel` shows any
larger fuel yields the same list, so no element is ever cut off. -/
def arangeAsc (stop step : ℚ) : ℕ → ℚ → List ℚ
  | 0, _ => []
  | fuel + 1, current =>
    if current ≤ stop then current :: arangeAsc stop step fuel (current + step) else []

/-- The descending loop of `arange.__iter__` (utils.py lines 297-300):
`while current >= stop: yield current; current += step` (negative step). -/
def arangeDesc (stop step : ℚ) : ℕ → ℚ → List ℚ
  | 0, _ => []
  | fuel + 1, current =>
    if stop ≤ current then current :: arangeDesc stop step fuel (current + step) else []

/-- `arange(start, stop, step)` as the list of values its iterator yields.
With `step = 0` the source's while-loop never advances `current`, so the
iterator either yields nothing (`start > stop`) or diverges; the divergent
case is unreachable from `Recorder.save_as` and is mapped to `[]`. -/
def arangeList (start stop step : ℚ) : List ℚ :=
  if 0 < step then
    arangeAsc stop step (⌊(stop - start) / step⌋.toNat + 1) start
  else if step < 0 then
    arangeDesc stop step (⌊(start - stop) / (-step)⌋.toNat + 1) start
  else []

/-- The frame times iterated by `Recorder.save_as` (watchers.py lines
401-407): `stop` defaults to `len(self.states) * 0.1`, is clamped to
`min(stop, len(self.states) * 0.1)`, and the loop runs over
`arange(start, stop, step)` (`progress_bar`, utils.py lines 45-62, yields
the underlying iterable unchanged). -/
def exportTimes (states : List StepRecord) (start : ℚ) (stop? : Option ℚ)
    (step : ℚ) : List ℚ :=
  let stop := stop?.getD ((states.length : ℚ) * (1/10))
  let stop := min stop ((states.length : ℚ) * (1/10))
  arangeList start stop step

/-- The frame loop of `save_as` (watchers.py lines 406-410): successive
`self.goto(time_step)` calls thread the mirror world; `image_to_gif`
(utils.py lines 242-249) re-encodes the rendered picture opaquely and is
modelled as the picture itself. -/
def renderFrames (states : List StepRecord) (live : List Snapshot) :
    MirrorWorld → List ℚ → Option (MirrorWorld × List Picture)
  | w, [] => some (w, [])
  | w, t :: ts => do
    let (w1, p) ← Recorder.goto states live w t
    let (w2, ps) ← renderFrames states live w1 ts
    some (w2, p :: ps)

/-- What `save_as` returns to its caller: a displayable gif
(`display_Image(url=..., embed=embed)`), a displayable video
(`display_HTML("<video src=...mp4 ...>")`), or nothing (Python `None`). -/
inductive SaveResult where
  | imageDisplay (url : String) (embed : Bool)
  | videoDisplay (name : String)
deriving DecidableEq

/-- Observable outcome of one `save_as` call: whether the animated gif file
was written (and with which frames), whether a stale mp4 was removed,
whether the ffmpeg-failure message was printed, and the returned value. -/
structure SaveOutcome where
  gifSaved : Bool
  gifFrames : List Picture
  mp4Removed : Bool
  consoleError : Bool
  result : Option SaveResult
deriving DecidableEq

/-- `Recorder.save_as` (watchers.py lines 385-440).  External collaborators
appear as arguments: `mp4Exists` is `os.path.exists(movie_name + ".mp4")`
and `ffmpegExit` the exit status of the synchronous `os.system("ffmpeg ...")`
call.  The gif options `loop`/`duration` are passed verbatim to the opaque
gif encoder and do not affect the modelled observables.  On a non-zero
ffmpeg exit status the source prints an error message and falls off the end
of the function, returning `None`. -/
def Recorder.save_as (states : List StepRecord) (live : List Snapshot)
    (w : MirrorWorld) (movie_name : String) (start : ℚ) (stop? : Option ℚ)
    (step : ℚ) (embed mp4 mp4Exists : Bool) (ffmpegExit : ℤ) :
    Option (MirrorWorld × SaveOutcome) := do
  let (w1, frames) ← renderFrames states live w (exportTimes states start stop? step)
  if frames.isEmpty then
    some (w1, ⟨false, [], false, false, none⟩)
  else if !mp4 then
    some (w1, ⟨true, frames, false, false,
      some (SaveResult.imageDisplay (movie_name ++ ".gif") embed)⟩)
  else if ffmpegExit = 0 then
    some (w1, ⟨true, frames, mp4Exists, false,
      some (SaveResult.videoDisplay (movie_name ++ ".mp4"))⟩)
  else
    some (w1, ⟨true, frames, mp4Exists, true, none⟩)

/-!
## The playback worker thread (`_Player`, watchers.py lines 262-285)
-/

/-- Fate of the `_Player.run` worker after one pass through the body of its
`while True:` loop. -/
inductive ThreadFate where
  | looping (s : PlayerState)
  | dead (e : String)
deriving DecidableEq

/-- One pass through the `_Player.run` loop body (watchers.py lines
276-279): wait on `can_run`, call `self.controller.goto("next")`, sleep.
The body contains no try/except, so when the `goto` call raises
(`Except.error e`, with `e` naming the Python exception), the exception
propagates out of `run` and the daemon thread terminates for good; only a
normal return keeps the loop alive. -/
def runBody (gotoResult : Except String PlayerState) : ThreadFate :=
  match gotoResult with
  | Except.ok s => ThreadFate.looping s
  | Except.error e => ThreadFate.dead e

theorem pyRound_intCast (n : ℤ) : pyRound (n : ℚ) = n := by
  simp [pyRound, Int.floor_intCast]

theorem pyRound1_div10 (n : ℤ) : pyRound1 ((n : ℚ) / 10) = (n : ℚ) / 10 := by
  have h : ((n : ℚ) / 10) * 10 = (n : ℚ) := by
    field_simp
  rw [pyRound1, h, pyRound_intCast]

theorem natMul_tenth (L : ℕ) : (L : ℚ) * (1/10) = (L : ℚ) / 10 := by
  ring

theorem playerAt_length (L : ℕ) (v : ℚ) : (playerAt L v).length = L := rfl

theorem playerAt_value (L : ℕ) (v : ℚ) : (playerAt L v).value = v := rfl

theorem playerAt_sliderMax (L : ℕ) (v : ℚ) :
    (playerAt L v).sliderMax = (L : ℚ) / 10 := by
  have h0 : (0 : ℚ) ≤ (L : ℚ) * (1/10) := by positivity
  simp only [playerAt, Player.update_length]
  rw [max_eq_left h0, natMul_tenth]
  have := pyRound1_div10 (L : ℤ)
  simpa using this

theorem pyRound1_natMul (L : ℕ) : pyRound1 ((L : ℚ) * (1/10)) = (L : ℚ) / 10 := by
  rw [natMul_tenth]
  have := pyRound1_div10 (L : ℤ)
  simpa using this

theorem sliderSet_playerAt (L : ℕ) (x w : ℚ) :
    sliderSet (playerAt L x) w = playerAt L (max 0 (min w (playerAt L x).sliderMax)) := rfl

theorem Player.goto_end (L : ℕ) (v : ℚ) :
    Player.goto (playerAt L v) "end" = playerAt L ((L : ℚ) / 10) := by
  have h0 : (0:ℚ) ≤ (L:ℚ)/10 := by positivity
  simp only [Player.goto, String.reduceEq, reduceIte, sliderSet_playerAt,
    playerAt_sliderMax, playerAt_length, pyRound1_natMul]
  rw [min_self, max_eq_right h0]

theorem Player.goto_prev_zero (L : ℕ) :
    Player.goto (playerAt L 0) "prev" = playerAt L ((L : ℚ) / 10) := by
  have h0 : (0:ℚ) ≤ (L:ℚ)/10 := by positivity
  have hneg : (0:ℚ) - 1/10 < 0 := by norm_num
  simp only [Player.goto, String.reduceEq, reduceIte, playerAt_length, playerAt_sliderMax, playerAt_value]
  rw [if_pos]
  · rw [pyRound1_natMul, sliderSet_playerAt, playerAt_sliderMax, min_self, max_eq_right h0]
  · exact hneg

theorem Player.goto_next_advance (L k : ℕ) (h : k < L) :
    Player.goto (playerAt L ((k : ℚ) / 10)) "next" = playerAt L (((k : ℚ) + 1) / 10) := by
  have hsum : (k : ℚ) / 10 + 1/10 = ((k : ℚ) + 1) / 10 := by ring
  have hcast : ((k : ℚ) + 1) = (((k + 1 : ℕ) : ℤ) : ℚ) := by push_cast; ring
  have hr1 : pyRound1 (((k : ℚ) + 1) / 10) = ((k : ℚ) + 1) / 10 := by
    rw [hcast, pyRound1_div10]
  have hle : ((k : ℚ) + 1) / 10 ≤ (L : ℚ) / 10 := by
    have : (k : ℚ) + 1 ≤ (L : ℚ) := by exact_mod_cast h
    linarith
  have h0 : (0:ℚ) ≤ ((k : ℚ) + 1)/10 := by positivity
  simp only [Player.goto, String.reduceEq, reduceIte, playerAt_length, playerAt_sliderMax, playerAt_value]
  rw [if_neg, natMul_tenth, hsum, min_eq_left hle, hr1, sliderSet_playerAt,
    playerAt_sliderMax, min_eq_left hle, max_eq_right h0]
  rw [hsum, hr1, pyRound1_natMul]
  exact not_lt.mpr hle

theorem Player.goto_next_wrap (L : ℕ) :
    Player.goto (playerAt L ((L : ℚ) / 10)) "next" = playerAt L 0 := by
  have hsum : (L : ℚ) / 10 + 1/10 = ((L : ℚ) + 1) / 10 := by ring
  have hcast : ((L : ℚ) + 1) = (((L + 1 : ℕ) : ℤ) : ℚ) := by push_cast; ring
  have hr1 : pyRound1 (((L : ℚ) + 1) / 10) = ((L : ℚ) + 1) / 10 := by
    rw [hcast, pyRound1_div10]
  have h0 : (0:ℚ) ≤ (L : ℚ)/10 := by positivity
  have hgt : (L : ℚ) / 10 < ((L : ℚ) + 1) / 10 := by linarith
  simp only [Player.goto, String.reduceEq, reduceIte, playerAt_length, playerAt_sliderMax, playerAt_value]
  rw [if_pos, sliderSet_playerAt, playerAt_sliderMax, min_eq_left h0, max_self]
  rw [hsum, hr1, pyRound1_natMul]
  exact hgt

theorem Player.next_iterate (L : ℕ) : ∀ k, k ≤ L →
    (fun s => Player.goto s "next")^[k] (playerAt L 0) = playerAt L ((k : ℚ) / 10) := by
  intro k
  induction k with
  | zero =>
    intro _
    norm_num
  | succ k ih =>
    intro hk
    rw [Function.iterate_succ_apply', ih (Nat.le_of_succ_le hk)]
    have := Player.goto_next_advance L k (Nat.lt_of_succ_le hk)
    rw [this]
    push_cast
    ring_nf

/-- Claim C1, corrected: `end()` sets the cursor to `length * step_duration`
(one step past the last recorded index), not `(length-1) * step_duration`;
for an empty log this is 0, as the claim says. -/
theorem claim_c1_end_cursor (L : ℕ) (v : ℚ) :
    (Player.goto (playerAt L v) "end").value = (L : ℚ) * (1/10) := by
  rw [Player.goto_end, playerAt_value, natMul_tenth]

/-- Claim C1 counterexample: on a log of length 1, `end()` leaves the cursor
at 0.1, not at the last valid index time `(1-1) * 0.1 = 0`. -/
theorem claim_c1_counterexample :
    (Player.goto (playerAt 1 0) "end").value ≠ ((1 - 1 : ℕ) : ℚ) * (1/10) := by
  rw [Player.goto_end, playerAt_value]
  norm_num

/-- Claim C2, corrected: the slider covers the `L+1` positions
`0, 0.1, ..., L*0.1`, so `next()` called exactly `L+1` times (not `L` times)
from cursor 0 returns the cursor to 0. -/
theorem claim_c2_next_wraparound (L : ℕ) :
    ((fun s => Player.goto s "next")^[L + 1] (playerAt L 0)).value = 0 := by
  rw [Function.iterate_succ_apply', Player.next_iterate L L le_rfl,
    Player.goto_next_wrap, playerAt_value]

/-- Claim C2 counterexample: on a log of length 1, a single `next()` from
cursor 0 moves the cursor to 0.1, not back to 0. -/
theorem claim_c2_counterexample :
    ((fun s => Player.goto s "next")^[1] (playerAt 1 0)).value ≠ 0 := by
  have h : playerAt 1 (((0 : ℕ) : ℚ) / 10) = playerAt 1 0 := by norm_num
  rw [Function.iterate_one, ← h, Player.goto_next_advance 1 0 (by norm_num), playerAt_value]
  norm_num

/-- Claim C3, corrected: `prev()` from cursor 0 wraps to `L * step_duration`
(the slider end, one step past the last recorded index), not to
`(L-1) * step_duration`. -/
theorem claim_c3_prev_wrap (L : ℕ) :
    (Player.goto (playerAt L 0) "prev").value = (L : ℚ) * (1/10) := by
  rw [Player.goto_prev_zero, playerAt_value, natMul_tenth]

/-- Claim C3 counterexample: on a log of length 1, `prev()` from cursor 0
leaves the cursor at 0.1, not at index `L-1` (time 0). -/
theorem claim_c3_counterexample :
    (Player.goto (playerAt 1 0) "prev").value ≠ ((1 - 1 : ℕ) : ℚ) * (1/10) := by
  rw [Player.goto_prev_zero, playerAt_value]
  norm_num

/-- Claim C5 counterexample: an exception raised by the "next" advancement
(here an `IndexError`) is not swallowed or logged; the loop body does not
keep the worker looping. -/
theorem claim_c5_counterexample :
    ¬ ∃ s, runBody (Except.error "IndexError") = ThreadFate.looping s := by
  rintro ⟨s, h⟩
  simp [runBody] at h

/-- Claim C5, corrected: `_Player.run` wraps its loop body in no try/except,
so every exception raised by the "next" advancement propagates out of `run`
and permanently terminates the worker thread; nothing swallows or logs it
and there is no restart mechanism. -/
theorem claim_c5_thread_dies (e : String) :
    runBody (Except.error e) = ThreadFate.dead e := rfl

/-- Unfolding of `Recorder.goto` on an empty log. -/
theorem Recorder.goto_empty (live : List Snapshot) (w : MirrorWorld) (t : ℚ) :
    Recorder.goto [] live w t =
      (updateRobotsLive w.robots live).map (fun robots =>
        let w1 : MirrorWorld := { w with robots := robots, time := t }
        let w2 := if t = 0 then { w1 with backgroundPristine := true } else w1
        (w2, Picture.mk w2)) := by
  cases h : updateRobotsLive w.robots live <;>
    simp [Recorder.goto, h, worldUpdate]

/-- `updateRobotsLive` succeeds when every live robot has a mirrored
counterpart, applies `passThrough` positionally and leaves the remaining
mirrored robots untouched. -/
theorem updateRobotsLive_some (live : List Snapshot) :
    ∀ robots : List MirrorRobot, live.length ≤ robots.length →
      ∃ out, updateRobotsLive robots live = some out ∧
        out.length = robots.length ∧
        (∀ (i : ℕ) (r : MirrorRobot) (sn : Snapshot), robots[i]? = some r →
          live[i]? = some sn → out[i]? = some (passThrough r sn)) ∧
        (∀ i : ℕ, live.length ≤ i → out[i]? = robots[i]?) := by
  induction live with
  | nil =>
    intro robots _
    refine ⟨robots, by cases robots <;> rfl, rfl, ?_, fun i _ => rfl⟩
    intro i r s _ hs
    simp at hs
  | cons s ss ih =>
    intro robots hlen
    cases robots with
    | nil => simp at hlen
    | cons r rs =>
      have h' : ss.length ≤ rs.length := by
        simpa using hlen
      obtain ⟨out, hout, hlen', hget, hrest⟩ := ih rs h'
      refine ⟨passThrough r s :: out, ?_, ?_, ?_, ?_⟩
      · simp [updateRobotsLive, hout]
      · simp [hlen']
      · intro i r' s' hr hs
        cases i with
        | zero =>
          simp at hr hs
          subst hr
          subst hs
          simp
        | succ i =>
          simp at hr hs ⊢
          exact hget i r' s' hr hs
      · intro i hi
        cases i with
        | zero => simp at hi
        | succ i =>
          simp
          exact hrest i (by simpa using hi)

/-- Claim C7, confirmed: when the state log is empty, `Recorder.goto` does
not index the log; each mirrored robot's pose `(x, y, a)`, velocities
`(vx, vy, va)` and stalled flag are copied verbatim from the corresponding
live simulation robot, so scrubbing works before any recording exists. -/
theorem claim_c7_empty_log_passthrough (live : List Snapshot) (w : MirrorWorld)
    (t : ℚ) (h : live.length ≤ w.robots.length) :
    ∃ w' p, Recorder.goto [] live w t = some (w', p) ∧
      w'.time = t ∧
      w'.robots.length = w.robots.length ∧
      ∀ (i : ℕ) (r : MirrorRobot) (s : Snapshot), w.robots[i]? = some r →
        live[i]? = some s →
        ∃ r', w'.robots[i]? = some r' ∧
          r'.x = s.x ∧ r'.y = s.y ∧ r'.a = s.a ∧
          r'.vx = s.vx ∧ r'.vy = s.vy ∧ r'.va = s.va ∧
          r'.stalled = s.stalled := by
  obtain ⟨out, hout, hlen, hget, _⟩ := updateRobotsLive_some live w.robots h
  rw [Recorder.goto_empty, hout]
  set w1 : MirrorWorld := { w with robots := out, time := t } with hw1
  set w2 := if t = 0 then { w1 with backgroundPristine := true } else w1 with hw2
  have hrob : w2.robots = out := by
    rw [hw2]
    split <;> rfl
  have htime : w2.time = t := by
    rw [hw2]
    split <;> rfl
  refine ⟨w2, Picture.mk w2, rfl, htime, by rw [hrob, hlen], ?_⟩
  intro i r s hr hs
  refine ⟨passThrough r s, by rw [hrob]; exact hget i r s hr hs, ?_⟩
  simp [passThrough, MirrorRobot.set_pose]

/-- Claim C7 witness: a concrete pass-through scrub with one live robot and
one mirrored robot. -/
theorem claim_c7_witness :
    ∃ w' p,
      Recorder.goto []
        [⟨3, 4, 5, 6, 7, 8, true⟩]
        ⟨[⟨0, 0, 0, 0, 0, 0, false, false, 0, []⟩], 9, false⟩ (1/2) = some (w', p) ∧
      w'.time = 1/2 ∧
      w'.robots.length = 1 ∧
      ∀ (i : ℕ) (r : MirrorRobot) (s : Snapshot),
        ([⟨0, 0, 0, 0, 0, 0, false, false, 0, []⟩] : List MirrorRobot)[i]? = some r →
        ([⟨3, 4, 5, 6, 7, 8, true⟩] : List Snapshot)[i]? = some s →
        ∃ r', w'.robots[i]? = some r' ∧
          r'.x = s.x ∧ r'.y = s.y ∧ r'.a = s.a ∧
          r'.vx = s.vx ∧ r'.vy = s.vy ∧ r'.va = s.va ∧
          r'.stalled = s.stalled :=
  claim_c7_empty_log_passthrough
    [⟨3, 4, 5, 6, 7, 8, true⟩]
    ⟨[⟨0, 0, 0, 0, 0, 0, false, false, 0, []⟩], 9, false⟩ (1/2) (by simp)

/-- When every lookup succeeds, the comprehension yields one element per
input, positionally. -/
theorem mapRaise_some_of (g : α → Option β) :
    ∀ xs : List α, (∀ x ∈ xs, (g x).isSome) →
      ∃ l, mapRaise g xs = some l ∧ l.length = xs.length ∧
        ∀ k : ℕ, l[k]? = xs[k]?.bind g := by
  intro xs
  induction xs with
  | nil =>
    intro _
    exact ⟨[], rfl, rfl, by simp⟩
  | cons x xs ih =>
    intro h
    obtain ⟨y, hy⟩ := Option.isSome_iff_exists.mp (h x (List.mem_cons_self x xs))
    obtain ⟨l, hl, hlen, hk⟩ := ih (fun z hz => h z (List.mem_cons_of_mem x hz))
    refine ⟨y :: l, ?_, by simp [hlen], ?_⟩
    · simp only [mapRaise, hy, hl]
    · intro k
      cases k with
      | zero => simp [hy]
      | succ k => simpa using hk k

/-- Claim C8, confirmed: the reconstructed trace window contains exactly the
`(position, heading)` entries at log indices `max(i - m, 0)` through `i`
inclusive (first conjunct, stated positionally with truncated subtraction
standing for `max(i - m, 0)`); in particular, for `max_length = 1` at index
2 on a three-record log it contains exactly the entries at indices 1 and 2
and never the entry at index 0 (second conjunct). -/
theorem claim_c8_trace_window :
    (∀ (states : List StepRecord) (r i m : ℕ), i < states.length →
      (∀ rec ∈ states, r < rec.length) →
      ∃ l, Recorder.get_trace states r i m = some l ∧
        l.length = (i + 1) - (i - m) ∧
        ∀ k : ℕ, k < (i + 1) - (i - m) →
          l[k]? = (states[(i - m) + k]?.bind (fun rec => rec[r]?)).map
            (fun s => (Point.mk s.x s.y, s.a))) ∧
    Recorder.get_trace
      [[⟨0, 0, 0, 0, 0, 0, false⟩], [⟨1, 0, 0, 0, 0, 0, false⟩],
        [⟨2, 0, 0, 0, 0, 0, false⟩]] 0 2 1
      = some [(Point.mk 1 0, 0), (Point.mk 2 0, 0)] := by
  constructor
  · intro states r i m hi hw
    set start := i - m with hstart
    set n := (i + 1) - start with hn
    have hsub : ∀ x ∈ (states.drop start).take n, x ∈ states :=
      fun x hx => List.drop_subset start states (List.take_subset n _ hx)
    have hsome : ∀ x ∈ (states.drop start).take n,
        ((fun state => state[r]?.map (fun s => (Point.mk s.x s.y, s.a))) x).isSome := by
      intro x hx
      have hr : r < x.length := hw x (hsub x hx)
      simp [List.getElem?_eq_getElem hr]
    obtain ⟨l, hl, hlen, hk⟩ := mapRaise_some_of _ _ hsome
    refine ⟨l, hl, ?_, ?_⟩
    · rw [hlen, List.length_take, List.length_drop]
      have hstartle : start ≤ i := by omega
      have : n ≤ states.length - start := by omega
      exact min_eq_left this
    · intro k hkn
      rw [hk k]
      have h1 : ((states.drop start).take n)[k]? = (states.drop start)[k]? := by
        rw [List.getElem?_take]
        simp [hkn]
      rw [h1, List.getElem?_drop]
      cases h2 : states[start + k]? with
      | none => simp
      | some rec =>
        cases h3 : rec[r]? with
        | none => simp [h3]
        | some sn => simp [h3]
  · rfl

/-- Claim C8 witness: instantiating the window characterization for
`max_length = 1` at index 2 of the three-record demonstration log. -/
theorem claim_c8_witness :
    ∃ l, Recorder.get_trace
        [[⟨0, 0, 0, 0, 0, 0, false⟩], [⟨1, 0, 0, 0, 0, 0, false⟩],
          [⟨2, 0, 0, 0, 0, 0, false⟩]] 0 2 1 = some l ∧
      l.length = (2 + 1) - (2 - 1) ∧
      ∀ k : ℕ, k < (2 + 1) - (2 - 1) →
        l[k]? = ((([[⟨0, 0, 0, 0, 0, 0, false⟩], [⟨1, 0, 0, 0, 0, 0, false⟩],
            [⟨2, 0, 0, 0, 0, 0, false⟩]] : List StepRecord)[(2 - 1) + k]?).bind
            (fun rec => rec[(0 : ℕ)]?)).map
          (fun s => (Point.mk s.x s.y, s.a)) :=
  claim_c8_trace_window.1
    [[⟨0, 0, 0, 0, 0, 0, false⟩], [⟨1, 0, 0, 0, 0, 0, false⟩],
      [⟨2, 0, 0, 0, 0, 0, false⟩]] 0 2 1 (by simp)
    (by
      intro rec hrec
      simp only [List.mem_cons, List.not_mem_nil, or_false] at hrec
      rcases hrec with rfl | rfl | rfl <;> simp)

theorem gotoWorld_robots (w : MirrorWorld) (robots : List MirrorRobot) (t : ℚ) :
    (gotoWorld w robots t).robots = robots := by
  unfold gotoWorld
  split <;> rfl

theorem gotoWorld_time (w : MirrorWorld) (robots : List MirrorRobot) (t : ℚ) :
    (gotoWorld w robots t).time = t := by
  unfold gotoWorld
  split <;> rfl

theorem gotoWorld_idem (w : MirrorWorld) (robots : List MirrorRobot) (t : ℚ) :
    gotoWorld (gotoWorld w robots t) robots t = gotoWorld w robots t := by
  unfold gotoWorld
  split <;> rfl

/-- What a successful `applyRecorded` says about the updated robot. -/
theorem applyRecorded_spec (states : List StepRecord) (index i : ℕ)
    (r : MirrorRobot) (s : Snapshot) (r' : MirrorRobot)
    (h : applyRecorded states index i r s = some r') :
    r'.x = s.x ∧ r'.y = s.y ∧ r'.a = s.a ∧ r'.vx = s.vx ∧ r'.vy = s.vy ∧
    r'.va = s.va ∧ r'.stalled = s.stalled ∧
    r'.do_trace = r.do_trace ∧ r'.max_trace_length = r.max_trace_length ∧
    (r.do_trace = false → r'.trace = r.trace) ∧
    (r.do_trace = true →
      Recorder.get_trace states i index r.max_trace_length = some r'.trace) := by
  cases hdo : r.do_trace with
  | false =>
    simp only [applyRecorded, MirrorRobot.set_pose, hdo, Bool.false_eq_true,
      if_false, Option.some.injEq] at h
    subst h
    simp [hdo]
  | true =>
    simp only [applyRecorded, MirrorRobot.set_pose, hdo, if_true] at h
    obtain ⟨tr, htr, heq⟩ := Option.map_eq_some'.mp h
    subst heq
    simp [hdo, htr]

/-- `get_trace` succeeds whenever the requested robot exists in every
record (the window is a sublist of the log). -/
theorem get_trace_isSome (states : List StepRecord) (r ci ml : ℕ)
    (h : ∀ rec ∈ states, r < rec.length) :
    ∃ l, Recorder.get_trace states r ci ml = some l := by
  have hsome : ∀ x ∈ (states.drop (ci - ml)).take (ci + 1 - (ci - ml)),
      ((fun state => state[r]?.map (fun s => (Point.mk s.x s.y, s.a))) x).isSome := by
    intro x hx
    have hx' : x ∈ states :=
      List.drop_subset (ci - ml) states (List.take_subset _ _ hx)
    have hr : r < x.length := h x hx'
    simp [List.getElem?_eq_getElem hr]
  obtain ⟨l, hl, -, -⟩ := mapRaise_some_of _ _ hsome
  exact ⟨l, hl⟩

theorem applyRecorded_isSome (states : List StepRecord) (index i : ℕ)
    (r : MirrorRobot) (s : Snapshot)
    (h : ∀ rec ∈ states, i < rec.length) :
    ∃ r', applyRecorded states index i r s = some r' := by
  cases hdo : r.do_trace with
  | false =>
    exact ⟨{ r.set_pose s.x s.y s.a with
      vx := s.vx, vy := s.vy, va := s.va, stalled := s.stalled },
      by simp [applyRecorded, MirrorRobot.set_pose, hdo]⟩
  | true =>
    obtain ⟨l, hl⟩ := get_trace_isSome states i index r.max_trace_length h
    refine ⟨{ ({ r.set_pose s.x s.y s.a with
      vx := s.vx, vy := s.vy, va := s.va, stalled := s.stalled } : MirrorRobot) with
      trace := l }, ?_⟩
    simp only [applyRecorded, MirrorRobot.set_pose, hdo, if_true]
    rw [hl]
    rfl

/-- Re-applying the same recorded snapshot to an already-updated robot is a
fixed point: the overwritten fields get the same values and the recomputed
trace window is unchanged. -/
theorem applyRecorded_idem (states : List StepRecord) (index i : ℕ)
    (r : MirrorRobot) (s : Snapshot) (r' : MirrorRobot)
    (h : applyRecorded states index i r s = some r') :
    applyRecorded states index i r' s = some r' := by
  obtain ⟨hx, hy, ha, hvx, hvy, hva, hst, hdo, hml, htr0, htr1⟩ :=
    applyRecorded_spec states index i r s r' h
  cases r' with
  | mk x' y' a' vx' vy' va' st' do' ml' tr' =>
    simp only at hx hy ha hvx hvy hva hst hdo hml htr0 htr1
    subst hx hy ha hvx hvy hva hst hml
    cases hdo' : r.do_trace with
    | false =>
      rw [hdo'] at hdo
      subst hdo
      rw [htr0 hdo']
      simp [applyRecorded, MirrorRobot.set_pose]
    | true =>
      rw [hdo'] at hdo
      subst hdo
      have htr := htr1 hdo'
      simp only [applyRecorded, MirrorRobot.set_pose, if_true]
      rw [htr]
      rfl

/-- `updateRobotsPlayback` succeeds whenever the record fits into the
mirrored-robot list and every robot index it will touch exists in every
log record. -/
theorem updateRobotsPlayback_some (states : List StepRecord) (index : ℕ) :
    ∀ (record : StepRecord), ∀ (i0 : ℕ) (robots : List MirrorRobot),
      record.length ≤ robots.length →
      (∀ j : ℕ, j < record.length → ∀ rec ∈ states, i0 + j < rec.length) →
      ∃ out, updateRobotsPlayback states index i0 robots record = some out := by
  intro record
  induction record with
  | nil =>
    intro i0 robots _ _
    exact ⟨robots, by cases robots <;> rfl⟩
  | cons s ss ih =>
    intro i0 robots hlen hj
    cases robots with
    | nil => simp at hlen
    | cons r rs =>
      have h0 : ∀ rec ∈ states, i0 < rec.length := by
        intro rec hrec
        have := hj 0 (by simp) rec hrec
        omega
      obtain ⟨r1, h1⟩ := applyRecorded_isSome states index i0 r s h0
      obtain ⟨rest, h2⟩ := ih (i0 + 1) rs (by simpa using hlen)
        (fun j hjlen rec hrec => by
          have := hj (j + 1) (by simp only [List.length_cons]; omega) rec hrec
          omega)
      exact ⟨r1 :: rest, by simp [updateRobotsPlayback, h1, h2]⟩

/-- Unfolding of the reconstruction loop on a robot/snapshot pair. -/
theorem updateRobotsPlayback_cons (states : List StepRecord) (index i0 : ℕ)
    (r : MirrorRobot) (rs : List MirrorRobot) (s : Snapshot) (ss : List Snapshot) :
    updateRobotsPlayback states index i0 (r :: rs) (s :: ss) =
      (applyRecorded states index i0 r s).bind (fun r1 =>
        (updateRobotsPlayback states index (i0 + 1) rs ss).map
          (fun rest => r1 :: rest)) := by
  cases h1 : applyRecorded states index i0 r s with
  | none => simp [updateRobotsPlayback, h1]
  | some r1 =>
    cases h2 : updateRobotsPlayback states index (i0 + 1) rs ss with
    | none => simp [updateRobotsPlayback, h1, h2]
    | some rest => simp [updateRobotsPlayback, h1, h2]

/-- Positional characterization of a successful `updateRobotsPlayback`. -/
theorem updateRobotsPlayback_get (states : List StepRecord) (index : ℕ) :
    ∀ (record : StepRecord), ∀ (i0 : ℕ) (robots out : List MirrorRobot),
      updateRobotsPlayback states index i0 robots record = some out →
      out.length = robots.length ∧
      (∀ (j : ℕ) (r : MirrorRobot) (s : Snapshot),
        robots[j]? = some r → record[j]? = some s →
        ∃ r', out[j]? = some r' ∧ applyRecorded states index (i0 + j) r s = some r') ∧
      (∀ j : ℕ, record.length ≤ j → out[j]? = robots[j]?) := by
  intro record
  induction record with
  | nil =>
    intro i0 robots out h
    have h' : updateRobotsPlayback states index i0 robots [] = some robots := by
      cases robots <;> rfl
    rw [h'] at h
    obtain rfl := Option.some.inj h
    refine ⟨rfl, ?_, fun j _ => rfl⟩
    intro j r s _ hs
    simp at hs
  | cons s ss ih =>
    intro i0 robots out h
    cases robots with
    | nil => simp [updateRobotsPlayback] at h
    | cons r rs =>
      rw [updateRobotsPlayback_cons] at h
      simp only [Option.bind_eq_some, Option.map_eq_some'] at h
      obtain ⟨r1, h1, rest, h2, heq⟩ := h
      subst heq
      obtain ⟨hlen, hget, hrest⟩ := ih (i0 + 1) rs rest h2
      refine ⟨by simp [hlen], ?_, ?_⟩
      · intro j r0 s0 hr hs
        cases j with
        | zero =>
          simp only [List.getElem?_cons_zero, Option.some.injEq] at hr hs
          subst hr
          subst hs
          exact ⟨r1, by simp, by simpa using h1⟩
        | succ j =>
          simp only [List.getElem?_cons_succ] at hr hs
          obtain ⟨r', hout, happ⟩ := hget j r0 s0 hr hs
          refine ⟨r', by simpa using hout, ?_⟩
          have harith : i0 + (j + 1) = (i0 + 1) + j := by omega
          rw [harith]
          exact happ
      · intro j hj
        cases j with
        | zero => simp at hj
        | succ j =>
          simp only [List.length_cons] at hj
          simp only [List.getElem?_cons_succ]
          exact hrest j (by omega)

/-- Re-running the reconstruction loop on its own output is a fixed point. -/
theorem updateRobotsPlayback_idem (states : List StepRecord) (index : ℕ) :
    ∀ (record : StepRecord), ∀ (i0 : ℕ) (robots out : List MirrorRobot),
      updateRobotsPlayback states index i0 robots record = some out →
      updateRobotsPlayback states index i0 out record = some out := by
  intro record
  induction record with
  | nil =>
    intro i0 robots out h
    have h' : updateRobotsPlayback states index i0 robots [] = some robots := by
      cases robots <;> rfl
    rw [h'] at h
    obtain rfl := Option.some.inj h
    cases robots <;> rfl
  | cons s ss ih =>
    intro i0 robots out h
    cases robots with
    | nil => simp [updateRobotsPlayback] at h
    | cons r rs =>
      rw [updateRobotsPlayback_cons] at h
      simp only [Option.bind_eq_some, Option.map_eq_some'] at h
      obtain ⟨r1, h1, rest, h2, heq⟩ := h
      subst heq
      have h1' := applyRecorded_idem states index i0 r s r1 h1
      have h2' := ih (i0 + 1) rs rest h2
      simp [updateRobotsPlayback, h1', h2']

/-- Unfolding of `Recorder.goto` on a non-empty log. -/
theorem Recorder.goto_nonempty (states : List StepRecord) (live : List Snapshot)
    (w : MirrorWorld) (t : ℚ) (hne : states.length ≠ 0) :
    Recorder.goto states live w t =
      (states[gotoIndex states.length t]?.bind
        (fun record =>
          updateRobotsPlayback states (gotoIndex states.length t) 0 w.robots record)).map
        (fun robots => (gotoWorld w robots t, Picture.mk (gotoWorld w robots t))) := by
  cases h : states[gotoIndex states.length t]? with
  | none => simp [Recorder.goto, hne, h]
  | some record =>
    cases h2 : updateRobotsPlayback states (gotoIndex states.length t) 0 w.robots record with
    | none => simp [Recorder.goto, hne, h, h2]
    | some robots =>
      simp [Recorder.goto, hne, h, h2, worldUpdate, gotoWorld]

theorem gotoIndex_lt (L : ℕ) (hL : L ≠ 0) (t : ℚ) : gotoIndex L t < L := by
  unfold gotoIndex clampIndex
  have h1 : min ((L : ℤ) - 1) (pyRound (t / (1/10))) ≤ (L : ℤ) - 1 := min_le_left _ _
  have h2 : max (min ((L : ℤ) - 1) (pyRound (t / (1/10)))) 0 ≤ (L : ℤ) - 1 :=
    max_le h1 (by omega)
  have h3 : (0 : ℤ) ≤ max (min ((L : ℤ) - 1) (pyRound (t / (1/10)))) 0 :=
    le_max_right _ _
  omega

/-- Clamping is a projection: the index recomputed from the clamped time is
the clamped index itself. -/
theorem gotoIndex_clampTime (L : ℕ) (t : ℚ) :
    gotoIndex L (clampTime L t) = gotoIndex L t := by
  set c := clampIndex L (pyRound (t / (1/10))) with hc
  have hdiv : clampTime L t / (1/10) = (c : ℚ) := by
    rw [clampTime, ← hc]
    field_simp
  have hround : pyRound (clampTime L t / (1/10)) = c := by
    rw [hdiv, pyRound_intCast]
  have hclamp : clampIndex L c = c := by
    rw [hc]
    unfold clampIndex
    rcases le_total ((L : ℤ) - 1) (pyRound (t / (1/10))) with h | h <;>
      simp [min_def, max_def] <;> split_ifs <;> omega
  unfold gotoIndex
  rw [hround, hclamp]

/-- Unfolding of `Recorder.goto` on an empty log, phrased with `gotoWorld`. -/
theorem Recorder.goto_empty_world (live : List Snapshot) (w : MirrorWorld) (t : ℚ) :
    Recorder.goto [] live w t =
      (updateRobotsLive w.robots live).map
        (fun robots => (gotoWorld w robots t, Picture.mk (gotoWorld w robots t))) := by
  cases h : updateRobotsLive w.robots live <;>
    simp [Recorder.goto, h, worldUpdate, gotoWorld]

/-- On a non-empty log, `goto t` and `goto (clampTime L t)` select the same
record and reconstruct identical robots; the raw `t` is what lands in the
mirror's time field; and re-applying the clamped time is idempotent. -/
theorem recorder_goto_clamp (states : List StepRecord) (live : List Snapshot)
    (w : MirrorWorld) (t : ℚ) (hne : states.length ≠ 0)
    (hwf : ∀ rec ∈ states, rec.length = w.robots.length) :
    ∃ w1 p1 w2 p2,
      Recorder.goto states live w t = some (w1, p1) ∧
      Recorder.goto states live w (clampTime states.length t) = some (w2, p2) ∧
      w1.robots = w2.robots ∧
      w1.time = t ∧
      w2.time = clampTime states.length t ∧
      Recorder.goto states live w2 (clampTime states.length t) = some (w2, p2) := by
  set idx := gotoIndex states.length t with hidxdef
  have hidx : idx < states.length := gotoIndex_lt _ hne t
  obtain ⟨record, hrec⟩ : ∃ record, states[idx]? = some record :=
    ⟨states.get ⟨idx, hidx⟩, by rw [List.getElem?_eq_getElem hidx]; rfl⟩
  have hrecmem : record ∈ states := by
    obtain ⟨hlt, rfl⟩ := List.getElem?_eq_some.mp hrec
    exact List.getElem_mem hlt
  have hreclen : record.length = w.robots.length := hwf record hrecmem
  obtain ⟨out, hout⟩ := updateRobotsPlayback_some states idx record 0 w.robots
    (le_of_eq hreclen)
    (fun j hj rec hrecm => by
      have h1 := hwf rec hrecm
      omega)
  have hg1 : Recorder.goto states live w t
      = some (gotoWorld w out t, Picture.mk (gotoWorld w out t)) := by
    rw [Recorder.goto_nonempty states live w t hne, ← hidxdef, hrec]
    simp [hout]
  have hidx2 : gotoIndex states.length (clampTime states.length t) = idx := by
    rw [hidxdef]
    exact gotoIndex_clampTime states.length t
  have hg2 : Recorder.goto states live w (clampTime states.length t)
      = some (gotoWorld w out (clampTime states.length t),
          Picture.mk (gotoWorld w out (clampTime states.length t))) := by
    rw [Recorder.goto_nonempty states live w _ hne, hidx2, hrec]
    simp [hout]
  have hout2 : updateRobotsPlayback states idx 0
      (gotoWorld w out (clampTime states.length t)).robots record = some out := by
    rw [gotoWorld_robots]
    exact updateRobotsPlayback_idem states idx record 0 w.robots out hout
  have hg3 : Recorder.goto states live (gotoWorld w out (clampTime states.length t))
      (clampTime states.length t)
      = some (gotoWorld w out (clampTime states.length t),
          Picture.mk (gotoWorld w out (clampTime states.length t))) := by
    rw [Recorder.goto_nonempty states live _ _ hne, hidx2, hrec]
    simp [hout2, gotoWorld_idem]
  exact ⟨_, _, _, _, hg1, hg2,
    by rw [gotoWorld_robots, gotoWorld_robots],
    gotoWorld_time w out t,
    gotoWorld_time w out (clampTime states.length t),
    hg3⟩

/-- Claim C4, corrected: on a non-empty log, `goto(t)` and
`goto(clamp(round(t/0.1), 0, L-1) * 0.1)` select the same StepRecord and
produce identical mirrored robots, and re-applying the same clamped time is
idempotent; but the full mirror states and rendered Pictures are not equal
in general, because `goto` stores the raw `t` verbatim in the mirror's time
field (and regenerates the background only when that raw time is exactly
0). -/
theorem claim_c4_goto_clamp (states : List StepRecord) (live : List Snapshot)
    (w : MirrorWorld) (t : ℚ) (hne : states.length ≠ 0)
    (hwf : ∀ rec ∈ states, rec.length = w.robots.length) :
    ∃ w1 p1 w2 p2,
      Recorder.goto states live w t = some (w1, p1) ∧
      Recorder.goto states live w (clampTime states.length t) = some (w2, p2) ∧
      w1.robots = w2.robots ∧
      w1.time = t ∧
      w2.time = clampTime states.length t ∧
      Recorder.goto states live w2 (clampTime states.length t) = some (w2, p2) :=
  recorder_goto_clamp states live w t hne hwf

/-- Claim C4 witness: a one-record log, one mirrored robot, `t = 0.25`. -/
theorem claim_c4_witness :
    ∃ w1 p1 w2 p2,
      Recorder.goto [[⟨1, 2, 3, 0, 0, 0, false⟩]] []
        ⟨[⟨0, 0, 0, 0, 0, 0, false, false, 0, []⟩], 9, false⟩ (1/4) = some (w1, p1) ∧
      Recorder.goto [[⟨1, 2, 3, 0, 0, 0, false⟩]] []
        ⟨[⟨0, 0, 0, 0, 0, 0, false, false, 0, []⟩], 9, false⟩
        (clampTime ([[⟨1, 2, 3, 0, 0, 0, false⟩]] : List StepRecord).length (1/4)) = some (w2, p2) ∧
      w1.robots = w2.robots ∧
      w1.time = 1/4 ∧
      w2.time = clampTime ([[⟨1, 2, 3, 0, 0, 0, false⟩]] : List StepRecord).length (1/4) ∧
      Recorder.goto [[⟨1, 2, 3, 0, 0, 0, false⟩]] [] w2
        (clampTime ([[⟨1, 2, 3, 0, 0, 0, false⟩]] : List StepRecord).length (1/4)) = some (w2, p2) :=
  claim_c4_goto_clamp [[⟨1, 2, 3, 0, 0, 0, false⟩]] []
    ⟨[⟨0, 0, 0, 0, 0, 0, false, false, 0, []⟩], 9, false⟩ (1/4)
    (by simp)
    (by
      intro rec hrec
      simp only [List.mem_singleton] at hrec
      subst hrec
      rfl)

/-- Claim C4 counterexample: with one recorded step and `t = 0.25`, the
clamped time is 0, and `goto(0.25)` and `goto(0)` produce different results
(the mirror time fields are 0.25 and 0 respectively), refuting the claimed
equality of mirror state and Picture. -/
theorem claim_c4_counterexample :
    Recorder.goto [[⟨1, 2, 3, 0, 0, 0, false⟩]] []
        ⟨[⟨0, 0, 0, 0, 0, 0, false, false, 0, []⟩], 9, false⟩ (1/4) ≠
      Recorder.goto [[⟨1, 2, 3, 0, 0, 0, false⟩]] []
        ⟨[⟨0, 0, 0, 0, 0, 0, false, false, 0, []⟩], 9, false⟩
        (clampTime ([[⟨1, 2, 3, 0, 0, 0, false⟩]] : List StepRecord).length (1/4)) := by
  obtain ⟨w1, p1, w2, p2, h1, h2, -, ht1, ht2, -⟩ :=
    recorder_goto_clamp [[⟨1, 2, 3, 0, 0, 0, false⟩]] []
      ⟨[⟨0, 0, 0, 0, 0, 0, false, false, 0, []⟩], 9, false⟩ (1/4)
      (by simp)
      (by
        intro rec hrec
        simp only [List.mem_singleton] at hrec
        subst hrec
        rfl)
  intro heq
  rw [h1, h2] at heq
  have hw : w1 = w2 := congrArg Prod.fst (Option.some.inj heq)
  have hts : (1/4 : ℚ) = clampTime ([[⟨1, 2, 3, 0, 0, 0, false⟩]] : List StepRecord).length (1/4) := by
    rw [← ht2, ← hw, ht1]
  have hc : clampTime ([[⟨1, 2, 3, 0, 0, 0, false⟩]] : List StepRecord).length (1/4) = 0 := by
    norm_num [clampTime, clampIndex, pyRound]
  rw [hc] at hts
  norm_num at hts

/-- Claim C10, confirmed: in empty-log pass-through mode `goto` clears every
mirrored robot's trace to the empty sequence (first conjunct); in
non-empty-log scrubbing the trace is left untouched for robots without
trace drawing enabled and replaced by the recomputed trace window for
robots with it enabled (second conjunct). -/
theorem claim_c10_trace_effects :
    (∀ (live : List Snapshot) (w : MirrorWorld) (t : ℚ) (w' : MirrorWorld) (p : Picture),
      live.length ≤ w.robots.length →
      Recorder.goto [] live w t = some (w', p) →
      ∀ (i : ℕ) (r : MirrorRobot) (s : Snapshot),
        w.robots[i]? = some r → live[i]? = some s →
        ∃ r', w'.robots[i]? = some r' ∧ r'.trace = []) ∧
    (∀ (states : List StepRecord) (live : List Snapshot) (w : MirrorWorld) (t : ℚ)
      (w' : MirrorWorld) (p : Picture) (record : StepRecord),
      states.length ≠ 0 →
      Recorder.goto states live w t = some (w', p) →
      states[gotoIndex states.length t]? = some record →
      ∀ (i : ℕ) (r : MirrorRobot) (s : Snapshot),
        w.robots[i]? = some r → record[i]? = some s →
        ∃ r', w'.robots[i]? = some r' ∧
          (r.do_trace = false → r'.trace = r.trace) ∧
          (r.do_trace = true →
            Recorder.get_trace states i (gotoIndex states.length t)
              r.max_trace_length = some r'.trace)) := by
  constructor
  · intro live w t w' p hlen hg i r s hr hs
    obtain ⟨out, hout, -, hget, -⟩ := updateRobotsLive_some live w.robots hlen
    rw [Recorder.goto_empty_world, hout] at hg
    simp only [Option.map_some', Option.some.injEq, Prod.mk.injEq] at hg
    obtain ⟨hw', -⟩ := hg
    refine ⟨passThrough r s, ?_, rfl⟩
    rw [← hw', gotoWorld_robots]
    exact hget i r s hr hs
  · intro states live w t w' p record hne hg hrec i r s hr hs
    rw [Recorder.goto_nonempty states live w t hne, hrec] at hg
    cases hupd : updateRobotsPlayback states (gotoIndex states.length t) 0 w.robots record with
    | none => simp [hupd] at hg
    | some out =>
      simp only [hupd, Option.some_bind, Option.map_some', Option.some.injEq,
        Prod.mk.injEq] at hg
      obtain ⟨hw', -⟩ := hg
      obtain ⟨-, hget, -⟩ :=
        updateRobotsPlayback_get states (gotoIndex states.length t) record 0 w.robots out hupd
      obtain ⟨r', hout', happ⟩ := hget i r s hr hs
      have happ' : applyRecorded states (gotoIndex states.length t) i r s = some r' := by
        simpa using happ
      obtain ⟨-, -, -, -, -, -, -, -, -, htr0, htr1⟩ :=
        applyRecorded_spec states (gotoIndex states.length t) i r s r' happ'
      refine ⟨r', ?_, htr0, htr1⟩
      rw [← hw', gotoWorld_robots]
      exact hout'

/-- Claim C10 witness: an empty-log pass-through scrub clears the mirrored
robot's previously nonempty trace. -/
theorem claim_c10_witness :
    ∃ w' p,
      Recorder.goto [] [⟨3, 4, 5, 6, 7, 8, true⟩]
        ⟨[⟨0, 0, 0, 0, 0, 0, false, true, 2, [(Point.mk 7 7, 1)]⟩], 9, false⟩ (1/2)
        = some (w', p) ∧
      ∃ r', w'.robots[0]? = some r' ∧ r'.trace = [] := by
  have hg : Recorder.goto [] [⟨3, 4, 5, 6, 7, 8, true⟩]
      ⟨[⟨0, 0, 0, 0, 0, 0, false, true, 2, [(Point.mk 7 7, 1)]⟩], 9, false⟩ (1/2)
      = some (⟨[⟨3, 4, 5, 6, 7, 8, true, true, 2, []⟩], 1/2, false⟩,
          Picture.mk ⟨[⟨3, 4, 5, 6, 7, 8, true, true, 2, []⟩], 1/2, false⟩) := by
    norm_num [Recorder.goto, updateRobotsLive, passThrough, MirrorRobot.set_pose, worldUpdate]
  refine ⟨_, _, hg, ?_⟩
  exact claim_c10_trace_effects.1 [⟨3, 4, 5, 6, 7, 8, true⟩]
    ⟨[⟨0, 0, 0, 0, 0, 0, false, true, 2, [(Point.mk 7 7, 1)]⟩], 9, false⟩ (1/2) _ _
    (by simp) hg 0 ⟨0, 0, 0, 0, 0, 0, false, true, 2, [(Point.mk 7 7, 1)]⟩
    ⟨3, 4, 5, 6, 7, 8, true⟩ (by simp) (by simp)

/-- Every value yielded by the ascending `arange` loop is at most `stop`. -/
theorem arangeAsc_mem_le (stop step : ℚ) :
    ∀ (fuel : ℕ) (cur t : ℚ), t ∈ arangeAsc stop step fuel cur → t ≤ stop := by
  intro fuel
  induction fuel with
  | zero =>
    intro cur t ht
    simp [arangeAsc] at ht
  | succ fuel ih =>
    intro cur t ht
    by_cases hc : cur ≤ stop
    · simp only [arangeAsc, if_pos hc, List.mem_cons] at ht
      rcases ht with rfl | ht
      · exact hc
      · exact ih (cur + step) t ht
    · simp [arangeAsc, hc] at ht

/-- The fuel bound `⌊(stop - cur)/step⌋ + 1` is exact: any two sufficient
fuels produce the same list, so `arangeList` never cuts the loop short. -/
theorem arangeAsc_fuel (stop step : ℚ) (hstep : 0 < step) :
    ∀ (f1 f2 : ℕ) (cur : ℚ),
      (⌊(stop - cur) / step⌋).toNat < f1 → (⌊(stop - cur) / step⌋).toNat < f2 →
      arangeAsc stop step f1 cur = arangeAsc stop step f2 cur := by
  intro f1
  induction f1 with
  | zero =>
    intro f2 cur h1 _
    omega
  | succ f1 ih =>
    intro f2 cur h1 h2
    cases f2 with
    | zero => omega
    | succ f2 =>
      by_cases hc : cur ≤ stop
      · simp only [arangeAsc, if_pos hc]
        congr 1
        by_cases hc2 : cur + step ≤ stop
        · have hF1 : (1 : ℤ) ≤ ⌊(stop - cur) / step⌋ := by
            rw [Int.le_floor]
            push_cast
            rw [le_div_iff₀ hstep]
            linarith
          have harg : (stop - (cur + step)) / step = (stop - cur) / step - 1 := by
            have h' : stop - (cur + step) = (stop - cur) - step := by ring
            rw [h', sub_div, div_self (ne_of_gt hstep)]
          have hfloor : ⌊(stop - (cur + step)) / step⌋ = ⌊(stop - cur) / step⌋ - 1 := by
            rw [harg, show (1 : ℚ) = ((1 : ℤ) : ℚ) by norm_num, Int.floor_sub_int]
          apply ih
          · rw [hfloor]
            omega
          · rw [hfloor]
            omega
        · have hnil : ∀ f : ℕ, arangeAsc stop step f (cur + step) = [] := by
            intro f
            cases f with
            | zero => rfl
            | succ f => simp [arangeAsc, hc2]
          rw [hnil, hnil]
      · simp only [arangeAsc, if_neg hc]

/-- Claim C9, confirmed: `save_as` clamps `stop` to
`min(stop, len(states) * 0.1)` before the frame loop, so no frame time ever
exceeds the recorded data (first conjunct); on an empty log,
`export(start=0, stop=1.0, step=0.1)` clamps `stop` to 0, iterates exactly
the single time 0 (second conjunct), and renders exactly one frame, at
time 0 (third conjunct). -/
theorem claim_c9_export_clamp :
    (∀ (states : List StepRecord) (start stop step : ℚ), 0 < step →
      ∀ t ∈ exportTimes states start (some stop) step,
        t ≤ min stop ((states.length : ℚ) * (1/10))) ∧
    exportTimes [] 0 (some 1) (1/10) = [0] ∧
    (∃ w' o, Recorder.save_as [] [] ⟨[], 0, false⟩ "movie" 0 (some 1) (1/10)
        false false false 0 = some (w', o) ∧
      o.gifFrames = [Picture.mk ⟨[], 0, true⟩] ∧
      ∀ q ∈ o.gifFrames, q.world.time = 0) := by
  refine ⟨?_, ?_, ?_⟩
  · intro states start stop step hstep t ht
    simp only [exportTimes, Option.getD_some] at ht
    rw [arangeList, if_pos hstep] at ht
    exact arangeAsc_mem_le _ _ _ _ t ht
  · norm_num [exportTimes, arangeList, arangeAsc]
  · refine ⟨⟨[], 0, true⟩, ⟨true, [Picture.mk ⟨[], 0, true⟩], false, false,
      some (SaveResult.imageDisplay ("movie" ++ ".gif") false)⟩, ?_, rfl, ?_⟩
    · norm_num [Recorder.save_as, renderFrames, exportTimes, arangeList, arangeAsc,
        Recorder.goto, updateRobotsLive, worldUpdate]
    · intro q hq
      simp only [List.mem_singleton] at hq
      subst hq
      rfl

/-- Claim C9 witness: instantiating the clamp bound on the empty log with
`start = 0`, `stop = 1`, `step = 0.1` at the single iterated time 0. -/
theorem claim_c9_witness :
    (0 : ℚ) ≤ min 1 ((([] : List StepRecord).length : ℚ) * (1/10)) := by
  have h := claim_c9_export_clamp
  exact h.1 [] 0 1 (1/10) (by norm_num) 0 (by rw [h.2.1]; simp)

/-- Case-split form of `Recorder.save_as`. -/
theorem save_as_eq (states : List StepRecord) (live : List Snapshot)
    (w : MirrorWorld) (movie_name : String) (start : ℚ) (stop? : Option ℚ)
    (step : ℚ) (embed mp4 mp4Exists : Bool) (ffmpegExit : ℤ) :
    Recorder.save_as states live w movie_name start stop? step embed mp4
        mp4Exists ffmpegExit =
      (renderFrames states live w (exportTimes states start stop? step)).map
        (fun wf =>
          (wf.1,
            if wf.2.isEmpty then (⟨false, [], false, false, none⟩ : SaveOutcome)
            else if !mp4 then
              ⟨true, wf.2, false, false,
                some (SaveResult.imageDisplay (movie_name ++ ".gif") embed)⟩
            else if ffmpegExit = 0 then
              ⟨true, wf.2, mp4Exists, false,
                some (SaveResult.videoDisplay (movie_name ++ ".mp4"))⟩
            else ⟨true, wf.2, mp4Exists, true, none⟩)) := by
  cases hrf : renderFrames states live w (exportTimes states start stop? step) with
  | none => simp [Recorder.save_as, hrf]
  | some wp =>
    obtain ⟨w1, frames⟩ := wp
    simp [Recorder.save_as, hrf]
    split_ifs <;> rfl

/-- Claim C6, corrected: when the external encoder exits with a non-zero
status, `save_as` prints the error message and returns `None`; the animated
gif written earlier in the same call remains on disk (it is never deleted),
but no artifact is returned to the caller and no typed failure value is
produced. -/
theorem claim_c6_ffmpeg_failure (states : List StepRecord) (live : List Snapshot)
    (w : MirrorWorld) (movie_name : String) (start : ℚ) (stop? : Option ℚ)
    (step : ℚ) (embed mp4Exists : Bool) (ffmpegExit : ℤ)
    (hex : ffmpegExit ≠ 0) (w' : MirrorWorld) (o : SaveOutcome)
    (h : Recorder.save_as states live w movie_name start stop? step embed true
      mp4Exists ffmpegExit = some (w', o))
    (hframes : o.gifFrames ≠ []) :
    o.result = none ∧ o.gifSaved = true ∧ o.consoleError = true := by
  rw [save_as_eq] at h
  cases hrf : renderFrames states live w (exportTimes states start stop? step) with
  | none =>
    rw [hrf] at h
    simp at h
  | some wp =>
    obtain ⟨w1, frames⟩ := wp
    rw [hrf] at h
    simp only [Option.map_some', Option.some.injEq, Prod.mk.injEq] at h
    obtain ⟨-, ho⟩ := h
    by_cases hfe : frames.isEmpty
    · rw [if_pos hfe] at ho
      rw [← ho] at hframes
      simp at hframes
    · rw [if_neg hfe] at ho
      simp only [Bool.not_true, Bool.false_eq_true, if_false] at ho
      rw [if_neg hex] at ho
      rw [← ho]
      exact ⟨rfl, rfl, rfl⟩

/-- Claim C6 witness: an empty-log export with `mp4=True` and encoder exit
status 1 writes the gif yet returns `None`. -/
theorem claim_c6_witness :
    ∃ w' o, Recorder.save_as [] [] ⟨[], 0, false⟩ "m" 0 none (1/10) false true false 1
        = some (w', o) ∧ o.gifFrames ≠ [] ∧
      (o.result = none ∧ o.gifSaved = true ∧ o.consoleError = true) := by
  have hsave : Recorder.save_as [] [] ⟨[], 0, false⟩ "m" 0 none (1/10) false true false 1
      = some (⟨[], 0, true⟩,
          ⟨true, [Picture.mk ⟨[], 0, true⟩], false, true, none⟩) := by
    norm_num [Recorder.save_as, renderFrames, exportTimes, arangeList, arangeAsc,
      Recorder.goto, updateRobotsLive, worldUpdate]
  refine ⟨_, _, hsave, by simp, ?_⟩
  exact claim_c6_ffmpeg_failure [] [] ⟨[], 0, false⟩ "m" 0 none (1/10) false false 1
    (by norm_num) _ _ hsave (by simp)

/-- Claim C6 counterexample: with encoder exit status 1, the gif file is
written (`gifSaved`), but the call returns `None` — no recoverable failure
value and no animated-image artifact is returned to the caller, refuting
"surfaced to the caller as a distinct recoverable failure, and the
animated-image artifact ... returned". -/
theorem claim_c6_counterexample :
    ∃ w' o, Recorder.save_as [] [] ⟨[], 0, false⟩ "m" 0 none (1/10) false true false 1
        = some (w', o) ∧ o.gifSaved = true ∧ o.result = none := by
  refine ⟨⟨[], 0, true⟩, ⟨true, [Picture.mk ⟨[], 0, true⟩], false, true, none⟩, ?_, rfl, rfl⟩
  norm_num [Recorder.save_as, renderFrames, exportTimes, arangeList, arangeAsc,
    Recorder.goto, updateRobotsLive, worldUpdate]
